import Mathlib

/-!
Verification of the multi-layer market-making engine (main.rs and
exchange/order_state_machine.rs) against its natural-language specification.

Shallow embedding conventions:
  - f64 quantities (prices, sizes, balances, notionals) are modelled as `ℚ`;
  - `Instant` timestamps and elapsed seconds are modelled as `Nat` seconds,
    `t.elapsed().as_secs()` at a current time `now` becoming `now - t`;
  - `HashSet<String>` / key sets become `List String` with membership;
  - `HashMap<String, Instant>` becomes `List (String × Nat)`;
  - fallible transport calls become explicit outcome values (`FetchOutcome`,
    `WsCallResult`) or oracles `String → Bool` for per-order REST results;
  - the `&mut self` style of the Rust code becomes explicit state passing.
-/

namespace MLK

/-! ### Configuration constants (main.rs lines 28-53) -/

/-- MAX_INV_SOL from main.rs. -/
def MAX_INV_SOL : ℚ := 15

/-- MAX_ORDERS_PER_SIDE from main.rs. -/
def MAX_ORDERS_PER_SIDE : Nat := 25

/-- OFI_PAUSE_THRESHOLD = 0.60 from main.rs. -/
def OFI_PAUSE_THRESHOLD : ℚ := 60 / 100

/-- OFI_RESUME_THRESHOLD = 0.35 from main.rs. -/
def OFI_RESUME_THRESHOLD : ℚ := 35 / 100

/-- CANCEL_TIMEOUT_SECS = 5 from main.rs. -/
def CANCEL_TIMEOUT_SECS : Nat := 5

/-- MAX_ORPHAN_CANCELS_PER_TICK = 5 from main.rs. -/
def MAX_ORPHAN_CANCELS_PER_TICK : Nat := 5

/-- BALANCE_SAFETY_BUFFER_PCT = 0.02 from main.rs. -/
def BALANCE_SAFETY_BUFFER_PCT : ℚ := 2 / 100

/-! ### Per-level order state machine (main.rs lines 58-80) -/

/-- LevelOrderState from main.rs: the state of one (level, side) cell. -/
inductive LevelOrderState where
  | Empty : LevelOrderState
  | Live (order_id : String) (price : ℚ) : LevelOrderState
  | CancelPending (order_id : String) (price : ℚ) (sent_at : Nat) (attempts : Nat) :
      LevelOrderState
  | CancelStuck (order_id : String) (price : ℚ) : LevelOrderState
deriving DecidableEq, Repr

namespace LevelOrderState

/-- is_empty from main.rs. -/
def is_empty : LevelOrderState → Bool
  | .Empty => true
  | _ => false

/-- is_live from main.rs. -/
def is_live : LevelOrderState → Bool
  | .Live _ _ => true
  | _ => false

/-- is_cancel_pending from main.rs. -/
def is_cancel_pending : LevelOrderState → Bool
  | .CancelPending _ _ _ _ => true
  | _ => false

/-- is_cancel_stuck from main.rs. -/
def is_cancel_stuck : LevelOrderState → Bool
  | .CancelStuck _ _ => true
  | _ => false

/-- order_id from main.rs: the id held by a non-Empty cell. -/
def order_id : LevelOrderState → Option String
  | .Live oid _ => some oid
  | .CancelPending oid _ _ _ => some oid
  | .CancelStuck oid _ => some oid
  | .Empty => none

end LevelOrderState

/-! ### Observed active orders and commitments (main.rs lines 85-130) -/

/-- ActiveOrder from main.rs: the authoritative record returned by the
reconciliation poll. -/
structure ActiveOrder where
  order_id : String
  side : String
  price : ℚ
  size : ℚ
deriving DecidableEq, Repr

/-- Balances from main.rs. -/
structure Balances where
  sol : ℚ
  usdt : ℚ
deriving DecidableEq, Repr

/-- CommitmentTracker from main.rs: two-layer commitment tracking. -/
structure CommitmentTracker where
  inflight_usdt : ℚ
  inflight_sol : ℚ
  live_usdt : ℚ
  live_sol : ℚ
deriving DecidableEq, Repr

namespace CommitmentTracker

/-- total_usdt from main.rs. -/
def total_usdt (c : CommitmentTracker) : ℚ := c.inflight_usdt + c.live_usdt

/-- total_sol from main.rs. -/
def total_sol (c : CommitmentTracker) : ℚ := c.inflight_sol + c.live_sol

/-- add_inflight_bid from main.rs. -/
def add_inflight_bid (c : CommitmentTracker) (notional : ℚ) : CommitmentTracker :=
  { c with inflight_usdt := c.inflight_usdt + notional }

/-- add_inflight_ask from main.rs. -/
def add_inflight_ask (c : CommitmentTracker) (size : ℚ) : CommitmentTracker :=
  { c with inflight_sol := c.inflight_sol + size }

/-- confirm_bid from main.rs. -/
def confirm_bid (c : CommitmentTracker) (notional : ℚ) : CommitmentTracker :=
  { c with inflight_usdt := max (c.inflight_usdt - notional) 0,
           live_usdt := c.live_usdt + notional }

/-- confirm_ask from main.rs. -/
def confirm_ask (c : CommitmentTracker) (size : ℚ) : CommitmentTracker :=
  { c with inflight_sol := max (c.inflight_sol - size) 0,
           live_sol := c.live_sol + size }

/-- release_bid from main.rs. -/
def release_bid (c : CommitmentTracker) (notional : ℚ) : CommitmentTracker :=
  { c with live_usdt := max (c.live_usdt - notional) 0 }

/-- release_ask from main.rs. -/
def release_ask (c : CommitmentTracker) (size : ℚ) : CommitmentTracker :=
  { c with live_sol := max (c.live_sol - size) 0 }

/-- reset_inflight from main.rs. -/
def reset_inflight (c : CommitmentTracker) : CommitmentTracker :=
  { c with inflight_usdt := 0, inflight_sol := 0 }

end CommitmentTracker

/-! ### Inventory gating functions (main.rs lines 133-136) -/

/-- can_place_bid from main.rs. -/
def can_place_bid (inv size : ℚ) : Bool := inv + size ≤ MAX_INV_SOL

/-- can_place_ask from main.rs. -/
def can_place_ask (inv size : ℚ) : Bool := inv - size ≥ -MAX_INV_SOL

/-- needs_cancel_bid from main.rs. -/
def needs_cancel_bid (inv size : ℚ) (skip_bids : Bool) : Bool :=
  skip_bids || inv + size > MAX_INV_SOL

/-- needs_cancel_ask from main.rs. -/
def needs_cancel_ask (inv size : ℚ) : Bool := inv - size < -MAX_INV_SOL

/-! ### Fetch of the authoritative active-order list (main.rs lines 301-326)

poll_active_orders issues a signed GET and parses the response; every failure
layer (transport error, body read error, JSON parse error, missing
data.items) falls through the `if let Ok(..)` chain and the function returns
the initial empty `Vec`.  The outcome of the fetch is made explicit here. -/

/-- Outcome of the HTTP fetch and parse inside poll_active_orders: either a
transport/parse failure, or a parsed list of items (id, side, price, size). -/
inductive FetchOutcome where
  | failure : FetchOutcome
  | success (items : List ActiveOrder) : FetchOutcome

/-- poll_active_orders from main.rs: on any transport or parse failure the
function returns the empty list; on success it returns the parsed items,
skipping those with an empty id (`if !id.is_empty()`). -/
def poll_active_orders : FetchOutcome → List ActiveOrder
  | .failure => []
  | .success items => items.filter (fun o => o.order_id ≠ "")

/-! ### Reconciliation of a single cell (main.rs lines 507-602)

The reconciliation tick walks every cell.  For each cell it may consult the
authoritative id set, attempt REST cancels (rest_cancel_order, whose
success/failure per order id is an oracle `restOk`), insert ids into
tracked_ids, and accumulate live commitments.  The per-cell work is captured
by `CellRecon`. -/

/-- Result of reconciling one cell: its new state, the ids it inserted into
tracked_ids, the amount it added to the live commitment of its side, and the
REST cancel calls it issued. -/
structure CellRecon where
  state : LevelOrderState
  tracked : List String
  delta : ℚ
  restCalls : List String
deriving DecidableEq, Repr

/-- Reconciliation of a bid cell (main.rs lines 509-556).  `active_ids` is the
set of ids on the exchange, `orders` the fetched list (used to recompute the
live notional), `restOk oid` the outcome of `rest_cancel_order` for `oid`,
and `now` the current time in seconds. -/
def reconBidCell (orders : List ActiveOrder) (active_ids : List String)
    (restOk : String → Bool) (now : Nat) : LevelOrderState → CellRecon
  | .Live oid price =>
    if oid ∈ active_ids then
      let d : ℚ :=
        match orders.find? (fun o => o.order_id = oid) with
        | some o => o.size * o.price
        | none => 0
      ⟨.Live oid price, [oid], d, []⟩
    else
      ⟨.Empty, [], 0, []⟩
  | .CancelPending oid price sent_at attempts =>
    if oid ∈ active_ids then
      if now - sent_at > CANCEL_TIMEOUT_SECS then
        if attempts < 3 then
          if restOk oid then ⟨.Empty, [], 0, [oid]⟩
          else ⟨.CancelStuck oid price, [], 0, [oid]⟩
        else ⟨.CancelStuck oid price, [], 0, []⟩
      else ⟨.CancelPending oid price sent_at attempts, [oid], 0, []⟩
    else
      ⟨.Empty, [], 0, []⟩
  | .CancelStuck oid price =>
    if oid ∈ active_ids then
      if restOk oid then ⟨.Empty, [], 0, [oid]⟩
      else ⟨.CancelStuck oid price, [oid], 0, [oid]⟩
    else
      ⟨.Empty, [], 0, []⟩
  | .Empty => ⟨.Empty, [], 0, []⟩

/-- Reconciliation of an ask cell (main.rs lines 559-601): identical to the
bid side except the live commitment accumulates `o.size` instead of
`o.size * o.price`. -/
def reconAskCell (orders : List ActiveOrder) (active_ids : List String)
    (restOk : String → Bool) (now : Nat) : LevelOrderState → CellRecon
  | .Live oid price =>
    if oid ∈ active_ids then
      let d : ℚ :=
        match orders.find? (fun o => o.order_id = oid) with
        | some o => o.size
        | none => 0
      ⟨.Live oid price, [oid], d, []⟩
    else
      ⟨.Empty, [], 0, []⟩
  | .CancelPending oid price sent_at attempts =>
    if oid ∈ active_ids then
      if now - sent_at > CANCEL_TIMEOUT_SECS then
        if attempts < 3 then
          if restOk oid then ⟨.Empty, [], 0, [oid]⟩
          else ⟨.CancelStuck oid price, [], 0, [oid]⟩
        else ⟨.CancelStuck oid price, [], 0, []⟩
      else ⟨.CancelPending oid price sent_at attempts, [oid], 0, []⟩
    else
      ⟨.Empty, [], 0, []⟩
  | .CancelStuck oid price =>
    if oid ∈ active_ids then
      if restOk oid then ⟨.Empty, [], 0, [oid]⟩
      else ⟨.CancelStuck oid price, [oid], 0, [oid]⟩
    else
      ⟨.Empty, [], 0, []⟩
  | .Empty => ⟨.Empty, [], 0, []⟩

/-! ### Rate-limited orphan cancellation (main.rs lines 604-621) -/

/-- State threaded through the orphan-cancellation loop: the remaining
`orphan_budget`, the `recently_cancelled` TTL map, and the orphan cancel
requests issued so far (in order). -/
structure OrphanState where
  budget : Nat
  rc : List (String × Nat)
  cancels : List String
deriving DecidableEq, Repr

/-- Expiry of stale entries from recently_cancelled before the orphan pass
(main.rs line 607): `recently_cancelled.retain(.. elapsed < 10)`. -/
def expireRecentlyCancelled (now : Nat) (rc : List (String × Nat)) :
    List (String × Nat) :=
  rc.filter (fun e => now - e.2 < 10)

/-- One iteration of the orphan-cancellation loop (main.rs lines 609-621): an
active order whose id is untracked, while budget remains and the id is not in
the recently-cancelled map, gets a streaming cancel, is recorded in the map,
and consumes one unit of budget. -/
def orphanStep (tracked : List String) (now : Nat) (s : OrphanState)
    (o : ActiveOrder) : OrphanState :=
  if o.order_id ∉ tracked ∧ s.budget > 0 then
    if s.rc.any (fun e => e.1 = o.order_id) then s
    else
      { budget := s.budget - 1,
        rc := (o.order_id, now) :: s.rc,
        cancels := s.cancels ++ [o.order_id] }
  else s

/-- The whole orphan-cancellation pass of one reconciliation tick
(main.rs lines 604-621). -/
def orphanPass (orders : List ActiveOrder) (tracked : List String)
    (rc0 : List (String × Nat)) (now : Nat) : OrphanState :=
  orders.foldl (orphanStep tracked now)
    { budget := MAX_ORPHAN_CANCELS_PER_TICK,
      rc := expireRecentlyCancelled now rc0,
      cancels := [] }

/-! ### The full reconciliation tick (main.rs lines 488-627) -/

/-- Reconciliation of the whole cell table (main.rs lines 507-602): the loop
body applies `reconBidCell` and `reconAskCell` to each cell pair,
accumulating tracked ids, the two live commitments and the REST calls. -/
def reconCells (orders : List ActiveOrder) (active_ids : List String)
    (restOk : String → Bool) (now : Nat) :
    List (LevelOrderState × LevelOrderState) →
      List (LevelOrderState × LevelOrderState) × List String × ℚ × ℚ × List String
  | [] => ([], [], 0, 0, [])
  | p :: rest =>
    let rb := reconBidCell orders active_ids restOk now p.1
    let ra := reconAskCell orders active_ids restOk now p.2
    let acc := reconCells orders active_ids restOk now rest
    ((rb.state, ra.state) :: acc.1,
     rb.tracked ++ ra.tracked ++ acc.2.1,
     rb.delta + acc.2.2.1,
     ra.delta + acc.2.2.2.1,
     rb.restCalls ++ ra.restCalls ++ acc.2.2.2.2)

/-- Result of one reconciliation tick. -/
structure ReconResult where
  cells : List (LevelOrderState × LevelOrderState)
  commitments : CommitmentTracker
  tracked_ids : List String
  recently_cancelled : List (String × Nat)
  orphan_cancels : List String
  rest_calls : List String

/-- One reconciliation tick (main.rs lines 488-627), given the list returned
by poll_active_orders: reset inflight commitments, build the authoritative id
set, reconcile every cell while rebuilding live commitments and tracked ids,
then run the rate-limited orphan-cancellation pass. -/
def reconTick (orders : List ActiveOrder) (restOk : String → Bool) (now : Nat)
    (cells : List (LevelOrderState × LevelOrderState)) (c : CommitmentTracker)
    (rc0 : List (String × Nat)) : ReconResult :=
  let c1 := c.reset_inflight
  let active_ids := orders.map (fun o => o.order_id)
  let acc := reconCells orders active_ids restOk now cells
  let c2 := { c1 with live_usdt := acc.2.2.1, live_sol := acc.2.2.2.1 }
  let os := orphanPass orders acc.2.1 rc0 now
  { cells := acc.1,
    commitments := c2,
    tracked_ids := acc.2.1,
    recently_cancelled := os.rc,
    orphan_cancels := os.cancels,
    rest_calls := acc.2.2.2.2 }

/-! ### The OFI gate (main.rs lines 654-661) -/

/-- The hysteretic OFI gate at the top of each controller tick
(main.rs lines 654-661).  Input: the current `ofi_paused` flag and the OFI
reading; output: the new flag and the initial (skip_bids, skip_asks) pair. -/
def ofiGate (paused : Bool) (ofi : ℚ) : Bool × Bool × Bool :=
  if paused then
    if |ofi| < OFI_RESUME_THRESHOLD then (false, false, false)
    else (true, decide (ofi < 0), decide (ofi > 0))
  else
    (decide (|ofi| > OFI_PAUSE_THRESHOLD),
     decide (ofi < -OFI_PAUSE_THRESHOLD),
     decide (ofi > OFI_PAUSE_THRESHOLD))

/-- Iterated OFI gate over a sequence of tick readings, keeping only the
paused flag. -/
def ofiGateTrace (paused : Bool) : List ℚ → Bool
  | [] => paused
  | x :: xs => ofiGateTrace (ofiGate paused x).1 xs

/-! ### The per-level controller tick (main.rs lines 695-828)

The outcome of one streaming call (`ws.place_order` / `ws.cancel_order`): the
Rust call returns `Err(..)` on a transport error or the 5 s per-request
timeout, or `Ok(r)` carrying `r.success` and (for places) `r.order_id`. -/

/-- Outcome of a streaming order request. -/
inductive WsCallResult where
  | err : WsCallResult
  | ack (success : Bool) (order_id : Option String) : WsCallResult

/-- A request emitted on the streaming channel by the controller. -/
inductive OrderEvent where
  | placeBid (price size : ℚ) : OrderEvent
  | placeAsk (price size : ℚ) : OrderEvent
  | cancel (order_id : String) : OrderEvent
deriving DecidableEq, Repr

/-- Inputs of the bid half of one level iteration of the controller tick.
`bp` is the rounded bid target price; `thresh` the level's refresh_bps;
`cancelResult oid` the outcome of `ws.cancel_order` for order `oid`;
`placeResult` the outcome of `ws.place_order` for this level's bid. -/
structure BidEnv where
  bp : ℚ
  thresh : ℚ
  skip_bids : Bool
  inv : ℚ
  bid_sz : ℚ
  bal_usdt : ℚ
  local_bid_count : Nat
  now : Nat
  cancelResult : String → WsCallResult
  placeResult : WsCallResult

/-- Inputs of the ask half of one level iteration. -/
structure AskEnv where
  ap : ℚ
  thresh : ℚ
  skip_asks : Bool
  inv : ℚ
  ask_sz : ℚ
  bal_sol : ℚ
  local_ask_count : Nat
  now : Nat
  cancelResult : String → WsCallResult
  placeResult : WsCallResult

/-- Refresh check for the bid cell (main.rs lines 711-730): a Live order whose
price drifted more than refresh_bps from the target is cancelled; on ack the
cell goes Empty, on negative ack or transport error it goes CancelPending. -/
def refreshCancelBid (env : BidEnv) (st : LevelOrderState) :
    LevelOrderState × List OrderEvent :=
  match st with
  | .Live oid price =>
    if |price - env.bp| / env.bp * 10000 > env.thresh then
      match env.cancelResult oid with
      | .ack true _ => (.Empty, [.cancel oid])
      | .ack false _ => (.CancelPending oid price env.now 1, [.cancel oid])
      | .err => (.CancelPending oid price env.now 1, [.cancel oid])
    else (st, [])
  | _ => (st, [])

/-- Refresh check for the ask cell (main.rs lines 732-749). -/
def refreshCancelAsk (env : AskEnv) (st : LevelOrderState) :
    LevelOrderState × List OrderEvent :=
  match st with
  | .Live oid price =>
    if |price - env.ap| / env.ap * 10000 > env.thresh then
      match env.cancelResult oid with
      | .ack true _ => (.Empty, [.cancel oid])
      | .ack false _ => (.CancelPending oid price env.now 1, [.cancel oid])
      | .err => (.CancelPending oid price env.now 1, [.cancel oid])
    else (st, [])
  | _ => (st, [])

/-- The guard of the bid place branch (main.rs lines 756-760): the cell is
Empty, the side not gated, the inventory bound holds, the available balance
(balance minus committed minus safety buffer, main.rs lines 757-758) covers
the new notional, and the local per-side count is below the cap. -/
def bidPlaceGuard (env : BidEnv) (st : LevelOrderState) (c : CommitmentTracker) : Bool :=
  st.is_empty && !env.skip_bids && can_place_bid env.inv env.bid_sz
    && decide (env.bal_usdt - c.total_usdt - env.bal_usdt * BALANCE_SAFETY_BUFFER_PCT ≥
        env.bid_sz * env.bp)
    && decide (env.local_bid_count < MAX_ORDERS_PER_SIDE)

/-- Bid placement / inventory-cancel step (main.rs lines 755-791), applied to
the re-read state after the refresh check.  A placement is attempted only
when bidPlaceGuard holds; a successful ack with an order id makes the cell
Live and charges the inflight commitment.  Otherwise a Live cell that the
inventory/gate check wants gone is cancelled; note that on a transport error
of that cancel the code has no else branch, so the cell remains Live. -/
def placeOrCancelBid (env : BidEnv) (st : LevelOrderState) (c : CommitmentTracker) :
    LevelOrderState × CommitmentTracker × List OrderEvent :=
  if bidPlaceGuard env st c then
    match env.placeResult with
    | .ack true (some oid) =>
      (.Live oid env.bp, c.add_inflight_bid (env.bid_sz * env.bp),
       [.placeBid env.bp env.bid_sz])
    | .ack true none => (st, c, [.placeBid env.bp env.bid_sz])
    | .ack false _ => (st, c, [.placeBid env.bp env.bid_sz])
    | .err => (st, c, [.placeBid env.bp env.bid_sz])
  else if st.is_live && needs_cancel_bid env.inv env.bid_sz env.skip_bids then
    match st with
    | .Live oid price =>
      match env.cancelResult oid with
      | .ack true _ => (.Empty, c, [.cancel oid])
      | .ack false _ => (.CancelPending oid price env.now 1, c, [.cancel oid])
      | .err => (st, c, [.cancel oid])
    | _ => (st, c, [])
  else (st, c, [])

/-- The guard of the ask place branch (main.rs lines 794-797). -/
def askPlaceGuard (env : AskEnv) (st : LevelOrderState) (c : CommitmentTracker) : Bool :=
  st.is_empty && !env.skip_asks && can_place_ask env.inv env.ask_sz
    && decide (env.bal_sol - c.total_sol - env.bal_sol * BALANCE_SAFETY_BUFFER_PCT ≥
        env.ask_sz)
    && decide (env.local_ask_count < MAX_ORDERS_PER_SIDE)

/-- Ask placement / inventory-cancel step (main.rs lines 793-827): the mirror
of the bid side, with the balance check `available_sol >= ask_sz` and no skip
flag in `needs_cancel_ask`. -/
def placeOrCancelAsk (env : AskEnv) (st : LevelOrderState) (c : CommitmentTracker) :
    LevelOrderState × CommitmentTracker × List OrderEvent :=
  if askPlaceGuard env st c then
    match env.placeResult with
    | .ack true (some oid) =>
      (.Live oid env.ap, c.add_inflight_ask env.ask_sz,
       [.placeAsk env.ap env.ask_sz])
    | .ack true none => (st, c, [.placeAsk env.ap env.ask_sz])
    | .ack false _ => (st, c, [.placeAsk env.ap env.ask_sz])
    | .err => (st, c, [.placeAsk env.ap env.ask_sz])
  else if st.is_live && needs_cancel_ask env.inv env.ask_sz then
    match st with
    | .Live oid price =>
      match env.cancelResult oid with
      | .ack true _ => (.Empty, c, [.cancel oid])
      | .ack false _ => (.CancelPending oid price env.now 1, c, [.cancel oid])
      | .err => (st, c, [.cancel oid])
    | _ => (st, c, [])
  else (st, c, [])

/-- One level's bid pipeline within a controller tick: refresh check followed
by the place / inventory-cancel step on the re-read state
(main.rs lines 711-791). -/
def tickLevelBid (env : BidEnv) (st : LevelOrderState) (c : CommitmentTracker) :
    LevelOrderState × CommitmentTracker × List OrderEvent :=
  let r1 := refreshCancelBid env st
  let r2 := placeOrCancelBid env r1.1 c
  (r2.1, r2.2.1, r1.2 ++ r2.2.2)

/-- One level's ask pipeline within a controller tick
(main.rs lines 732-749 and 793-827). -/
def tickLevelAsk (env : AskEnv) (st : LevelOrderState) (c : CommitmentTracker) :
    LevelOrderState × CommitmentTracker × List OrderEvent :=
  let r1 := refreshCancelAsk env st
  let r2 := placeOrCancelAsk env r1.1 c
  (r2.1, r2.2.1, r1.2 ++ r2.2.2)

/-! ### FIFO P&L accounting (main.rs lines 138-178) -/

/-- Entry from main.rs: one FIFO lot (price, size). -/
structure Entry where
  px : ℚ
  sz : ℚ
deriving DecidableEq, Repr

/-- PnL from main.rs: the long queue `lq`, short queue `sq`, and scalar
counters.  The queue fronts are the list heads. -/
structure PnL where
  lq : List Entry
  sq : List Entry
  buys : Nat
  sells : Nat
  spread : ℚ
  reb : ℚ
  matched : Nat
  wins : Nat
  losses : Nat
deriving DecidableEq, Repr

/-- The default (all-empty, all-zero) PnL state, Rust `PnL::default()`. -/
def PnL.default : PnL := ⟨[], [], 0, 0, 0, 0, 0, 0, 0⟩

/-- State threaded through the matching while-loop inside PnL::buy / sell. -/
structure MatchState where
  q : List Entry
  rem : ℚ
  spread : ℚ
  matched : Nat
  wins : Nat
  losses : Nat

/-- The matching while-loop of PnL::buy (main.rs lines 149-157): while the
remaining size is positive and the short queue non-empty, match against the
front lot, add `m * (e.px - px)` of realized spread, and pop the front once
its size drops below 0.0001.  `fuel` bounds the iteration count; every
iteration either pops the front or zeroes `rem`, so fuel `q.length + 2`
always reaches the loop's own exit condition (buyLoop_exit below). -/
def buyLoop (px : ℚ) : Nat → MatchState → MatchState
  | 0, s => s
  | fuel + 1, s =>
    match s.q with
    | [] => s
    | e :: rest =>
      if s.rem > 0 then
        let m := min s.rem e.sz
        let pnl := m * (e.px - px)
        let esz := e.sz - m
        buyLoop px fuel
          { q := if esz < 1 / 10000 then rest else ⟨e.px, esz⟩ :: rest,
            rem := s.rem - m,
            spread := s.spread + pnl,
            matched := s.matched + 1,
            wins := if pnl > 0 then s.wins + 1 else s.wins,
            losses := if pnl > 0 then s.losses else s.losses + 1 }
      else s

/-- The matching while-loop of PnL::sell (main.rs lines 163-171): same shape,
matching the long queue with realized spread `m * (px - e.px)`. -/
def sellLoop (px : ℚ) : Nat → MatchState → MatchState
  | 0, s => s
  | fuel + 1, s =>
    match s.q with
    | [] => s
    | e :: rest =>
      if s.rem > 0 then
        let m := min s.rem e.sz
        let pnl := m * (px - e.px)
        let esz := e.sz - m
        sellLoop px fuel
          { q := if esz < 1 / 10000 then rest else ⟨e.px, esz⟩ :: rest,
            rem := s.rem - m,
            spread := s.spread + pnl,
            matched := s.matched + 1,
            wins := if pnl > 0 then s.wins + 1 else s.wins,
            losses := if pnl > 0 then s.losses else s.losses + 1 }
      else s

/-- PnL::buy from main.rs: bump counters, run the matching loop against the
short queue, and push any residual above 0.0001 onto the back of the long
queue. -/
def PnL.buy (p : PnL) (px sz r : ℚ) : PnL :=
  let s := buyLoop px (p.sq.length + 2)
    { q := p.sq, rem := sz, spread := p.spread, matched := p.matched,
      wins := p.wins, losses := p.losses }
  { lq := if s.rem > 1 / 10000 then p.lq ++ [⟨px, s.rem⟩] else p.lq,
    sq := s.q,
    buys := p.buys + 1,
    sells := p.sells,
    spread := s.spread,
    reb := p.reb + r,
    matched := s.matched,
    wins := s.wins,
    losses := s.losses }

/-- PnL::sell from main.rs: the mirror of buy, matching the long queue and
pushing any residual onto the back of the short queue. -/
def PnL.sell (p : PnL) (px sz r : ℚ) : PnL :=
  let s := sellLoop px (p.lq.length + 2)
    { q := p.lq, rem := sz, spread := p.spread, matched := p.matched,
      wins := p.wins, losses := p.losses }
  { lq := s.q,
    sq := if s.rem > 1 / 10000 then p.sq ++ [⟨px, s.rem⟩] else p.sq,
    buys := p.buys,
    sells := p.sells + 1,
    spread := s.spread,
    reb := p.reb + r,
    matched := s.matched,
    wins := s.wins,
    losses := s.losses }

/-- PnL::inv from main.rs: net inventory, long sizes minus short sizes. -/
def PnL.inv (p : PnL) : ℚ :=
  (p.lq.map (fun e => e.sz)).sum - (p.sq.map (fun e => e.sz)).sum

/-- PnL::net from main.rs. -/
def PnL.net (p : PnL) : ℚ := p.spread + p.reb

/-- One fill applied to the PnL state: side "buy" or side "sell"
(main.rs lines 630-633). -/
inductive PnLOp where
  | buy (px sz r : ℚ) : PnLOp
  | sell (px sz r : ℚ) : PnLOp

/-- Application of a finite sequence of fills to a PnL state. -/
def applyPnLOps (p : PnL) : List PnLOp → PnL
  | [] => p
  | .buy px sz r :: rest => applyPnLOps (p.buy px sz r) rest
  | .sell px sz r :: rest => applyPnLOps (p.sell px sz r) rest

/-! ### Order state machine (exchange/order_state_machine.rs) -/

/-- OrderState from order_state_machine.rs. -/
inductive OrderState where
  | PendingNew
  | Open
  | PartiallyFilled
  | PendingModify
  | PendingCancel
  | Filled
  | Cancelled
  | Rejected
  | Expired
deriving DecidableEq, Repr

namespace OrderState

/-- is_terminal from order_state_machine.rs. -/
def is_terminal : OrderState → Bool
  | .Filled | .Cancelled | .Rejected | .Expired => true
  | _ => false

/-- is_pending from order_state_machine.rs. -/
def is_pending : OrderState → Bool
  | .PendingNew | .PendingModify | .PendingCancel => true
  | _ => false

/-- is_active from order_state_machine.rs. -/
def is_active : OrderState → Bool
  | .Open | .PartiallyFilled => true
  | _ => false

end OrderState

/-- StateTransition from order_state_machine.rs. -/
inductive StateTransition where
  | Acknowledge
  | PartialFill
  | Fill
  | ModifyRequest
  | ModifyAck
  | CancelRequest
  | CancelAck
  | Reject
  | Expire
deriving DecidableEq, Repr

/-- OrderInfo from order_state_machine.rs, with timestamps as Nat. -/
structure OrderInfo where
  order_id : Option String
  client_oid : String
  symbol : String
  side : String
  price : ℚ
  original_size : ℚ
  filled_size : ℚ
  state : OrderState
  created_at : Nat
  last_update : Nat
  state_history : List (OrderState × Nat)

/-- OrderStateMachine from order_state_machine.rs; the three HashMaps are
modelled as partial functions. -/
structure OrderStateMachine where
  orders : String → Option OrderInfo
  order_id_map : String → Option String
  pending_dedup : String → Option Nat

/-- The state/event table inside OrderStateMachine::transition
(order_state_machine.rs lines 173-194): `some` is a legal next state, `none`
the `Invalid state transition` arm. -/
def nextState : OrderState → StateTransition → Option OrderState
  | .PendingNew, .Acknowledge => some .Open
  | .PendingNew, .Reject => some .Rejected
  | .Open, .PartialFill => some .PartiallyFilled
  | .Open, .Fill => some .Filled
  | .PartiallyFilled, .Fill => some .Filled
  | .Open, .Expire => some .Expired
  | .Open, .ModifyRequest => some .PendingModify
  | .PartiallyFilled, .ModifyRequest => some .PendingModify
  | .PendingModify, .ModifyAck => some .Open
  | .Open, .CancelRequest => some .PendingCancel
  | .PartiallyFilled, .CancelRequest => some .PendingCancel
  | .PendingCancel, .CancelAck => some .Cancelled
  | _, _ => none

/-- OrderStateMachine::transition (order_state_machine.rs lines 170-202):
look up the order by client_oid (error `Order not found` if absent), match
(state, transition) against the table (error `Invalid state transition` on
no match), otherwise write the new state, bump last_update and append to
state_history.  The `&mut self` receiver is returned as the second
component; the error paths return it untouched. -/
def OrderStateMachine.transition (sm : OrderStateMachine) (client_oid : String)
    (t : StateTransition) (now : Nat) :
    Except String OrderState × OrderStateMachine :=
  match sm.orders client_oid with
  | none => (.error "Order not found", sm)
  | some order =>
    match nextState order.state t with
    | none => (.error "Invalid state transition", sm)
    | some new_state =>
      (.ok new_state,
       { sm with
           orders := fun k =>
             if k = client_oid then
               some { order with
                        state := new_state,
                        last_update := now,
                        state_history := order.state_history ++ [(new_state, now)] }
             else sm.orders k })

/-! ## Theorems -/

/-- A terminal order state admits no transition event
(order_state_machine.rs: the match lists only PendingNew, Open,
PartiallyFilled, PendingModify and PendingCancel as source states). -/
lemma nextState_terminal (st : OrderState) (t : StateTransition)
    (h : st.is_terminal = true) : nextState st t = none := by
  cases st <;> cases t <;> first
    | rfl
    | simp [OrderState.is_terminal] at h

/-- Claim C10: for every order whose current state is terminal (Filled,
Cancelled, Rejected, or Expired), OrderStateMachine::transition returns an
error for every transition event; and whenever transition returns an error
(invalid state/event pair or unknown client_oid), the orders map is
unchanged, so the order's state and state_history are unmodified. -/
theorem c10_terminal_and_error_transitions (sm : OrderStateMachine)
    (client_oid : String) (t : StateTransition) (now : Nat) :
    (∀ o, sm.orders client_oid = some o → o.state.is_terminal = true →
      (sm.transition client_oid t now).1 = .error "Invalid state transition") ∧
    (∀ e, (sm.transition client_oid t now).1 = .error e →
      (sm.transition client_oid t now).2 = sm) := by
  constructor
  · intro o ho hterm
    simp [OrderStateMachine.transition, ho, nextState_terminal o.state t hterm]
  · intro e he
    unfold OrderStateMachine.transition at he ⊢
    cases hsm : sm.orders client_oid with
    | none => simp [hsm]
    | some o =>
      cases hns : nextState o.state t with
      | none => simp [hsm, hns]
      | some ns => simp [hsm, hns] at he

/-- Sample filled order for exercising c10_terminal_and_error_transitions. -/
def c10SampleInfo : OrderInfo :=
  { order_id := some "E1", client_oid := "o1", symbol := "SOL-USDT",
    side := "buy", price := 1, original_size := 1, filled_size := 1,
    state := .Filled, created_at := 0, last_update := 0,
    state_history := [(.PendingNew, 0), (.Open, 0), (.Filled, 0)] }

/-- Sample machine holding one Filled order under client_oid "o1". -/
def c10SampleSm : OrderStateMachine :=
  { orders := fun k => if k = "o1" then some c10SampleInfo else none,
    order_id_map := fun _ => none,
    pending_dedup := fun _ => none }

/-- Witness for C10: a Filled order rejects Acknowledge and the machine is
returned unchanged. -/
theorem c10_witness :
    (c10SampleSm.transition "o1" .Acknowledge 0).1 =
        .error "Invalid state transition" ∧
    (c10SampleSm.transition "o1" .Acknowledge 0).2 = c10SampleSm := by
  have h := c10_terminal_and_error_transitions c10SampleSm "o1" .Acknowledge 0
  have h1 := h.1 c10SampleInfo (by simp [c10SampleSm]) (by rfl)
  exact ⟨h1, h.2 "Invalid state transition" h1⟩

/-- Claim C5: during reconciliation, a cell in
CancelPending(id, price, sent_at, attempts) becomes Empty if id is absent
from the authoritative active set; if id is present and age(sent_at) exceeds
5 s with attempts < 3, a REST cancel is attempted and the cell becomes Empty
on success and CancelStuck on failure; if id is present past the timeout
with attempts >= 3, the cell becomes CancelStuck without a REST attempt;
otherwise the cell stays CancelPending and its id is added to the tracked
set.  Proved for both the bid and the ask reconciliation branches. -/
theorem c5_cancel_pending_recon (orders : List ActiveOrder)
    (restOk : String → Bool) (now : Nat) (oid : String) (price : ℚ)
    (sent_at attempts : Nat) (S : List String)
    (hS : S = orders.map (fun o => o.order_id)) :
    (oid ∉ S →
      reconBidCell orders S restOk now (.CancelPending oid price sent_at attempts) =
        ⟨.Empty, [], 0, []⟩ ∧
      reconAskCell orders S restOk now (.CancelPending oid price sent_at attempts) =
        ⟨.Empty, [], 0, []⟩) ∧
    (oid ∈ S → now - sent_at > CANCEL_TIMEOUT_SECS → attempts < 3 →
      restOk oid = true →
      reconBidCell orders S restOk now (.CancelPending oid price sent_at attempts) =
        ⟨.Empty, [], 0, [oid]⟩ ∧
      reconAskCell orders S restOk now (.CancelPending oid price sent_at attempts) =
        ⟨.Empty, [], 0, [oid]⟩) ∧
    (oid ∈ S → now - sent_at > CANCEL_TIMEOUT_SECS → attempts < 3 →
      restOk oid = false →
      reconBidCell orders S restOk now (.CancelPending oid price sent_at attempts) =
        ⟨.CancelStuck oid price, [], 0, [oid]⟩ ∧
      reconAskCell orders S restOk now (.CancelPending oid price sent_at attempts) =
        ⟨.CancelStuck oid price, [], 0, [oid]⟩) ∧
    (oid ∈ S → now - sent_at > CANCEL_TIMEOUT_SECS → 3 ≤ attempts →
      reconBidCell orders S restOk now (.CancelPending oid price sent_at attempts) =
        ⟨.CancelStuck oid price, [], 0, []⟩ ∧
      reconAskCell orders S restOk now (.CancelPending oid price sent_at attempts) =
        ⟨.CancelStuck oid price, [], 0, []⟩) ∧
    (oid ∈ S → ¬(now - sent_at > CANCEL_TIMEOUT_SECS) →
      reconBidCell orders S restOk now (.CancelPending oid price sent_at attempts) =
        ⟨.CancelPending oid price sent_at attempts, [oid], 0, []⟩ ∧
      reconAskCell orders S restOk now (.CancelPending oid price sent_at attempts) =
        ⟨.CancelPending oid price sent_at attempts, [oid], 0, []⟩) := by
  refine ⟨?_, ?_, ?_, ?_, ?_⟩
  · intro h1
    constructor <;> simp [reconBidCell, reconAskCell, h1]
  · intro h1 h2 h3 h4
    constructor <;> simp [reconBidCell, reconAskCell, h1, h2, h3, h4]
  · intro h1 h2 h3 h4
    constructor <;> simp [reconBidCell, reconAskCell, h1, h2, h3, h4]
  · intro h1 h2 h3
    have h3' : ¬ (attempts < 3) := by omega
    constructor <;> simp [reconBidCell, reconAskCell, h1, h2, h3']
  · intro h1 h2
    constructor <;> simp [reconBidCell, reconAskCell, h1, h2]

/-- Witness for C5: a CancelPending cell aged 10 s with one attempt whose
REST cancel succeeds is reconciled to Empty after one REST call. -/
theorem c5_witness :
    reconBidCell [⟨"A", "buy", 1, 1⟩]
        (([⟨"A", "buy", 1, 1⟩] : List ActiveOrder).map (fun o => o.order_id))
        (fun _ => true) 10 (.CancelPending "A" 1 0 1) = ⟨.Empty, [], 0, ["A"]⟩ ∧
    reconAskCell [⟨"A", "buy", 1, 1⟩]
        (([⟨"A", "buy", 1, 1⟩] : List ActiveOrder).map (fun o => o.order_id))
        (fun _ => true) 10 (.CancelPending "A" 1 0 1) = ⟨.Empty, [], 0, ["A"]⟩ := by
  exact (c5_cancel_pending_recon [⟨"A", "buy", 1, 1⟩] (fun _ => true) 10 "A" 1 0 1
      _ rfl).2.1 (by decide) (by decide) (by decide) rfl

/-- Claim C7: the OFI gate is hysteretic: the paused flag is set when
|OFI| > 0.60 and, once set, persists at every subsequent controller tick
until |OFI| < 0.35; once cleared, it is set again only when |OFI| > 0.60;
while paused, bids are skipped when OFI < 0 and asks are skipped when
OFI > 0. -/
theorem c7_ofi_gate_hysteresis :
    (∀ (p : Bool) (ofi : ℚ), |ofi| > OFI_PAUSE_THRESHOLD →
      (ofiGate p ofi).1 = true) ∧
    (∀ ofi : ℚ, ¬(|ofi| < OFI_RESUME_THRESHOLD) → (ofiGate true ofi).1 = true) ∧
    (∀ ofi : ℚ, |ofi| < OFI_RESUME_THRESHOLD → (ofiGate true ofi).1 = false) ∧
    (∀ ofi : ℚ, ¬(|ofi| > OFI_PAUSE_THRESHOLD) → (ofiGate false ofi).1 = false) ∧
    (∀ (p : Bool) (ofi : ℚ), (ofiGate p ofi).1 = true →
      ((ofiGate p ofi).2.1 = true ↔ ofi < 0) ∧
      ((ofiGate p ofi).2.2 = true ↔ ofi > 0)) ∧
    (∀ ofis : List ℚ, (∀ x ∈ ofis, ¬(|x| < OFI_RESUME_THRESHOLD)) →
      ofiGateTrace true ofis = true) := by
  have hps : OFI_RESUME_THRESHOLD < OFI_PAUSE_THRESHOLD := by
    norm_num [OFI_RESUME_THRESHOLD, OFI_PAUSE_THRESHOLD]
  refine ⟨?_, ?_, ?_, ?_, ?_, ?_⟩
  · intro p ofi h
    cases p with
    | false => simp [ofiGate, h]
    | true =>
      have : ¬ |ofi| < OFI_RESUME_THRESHOLD := by
        push_neg; exact le_of_lt (lt_trans hps h)
      simp [ofiGate, this]
  · intro ofi h
    simp [ofiGate, h]
  · intro ofi h
    simp [ofiGate, h]
  · intro ofi h
    simp [ofiGate, h]
  · intro p ofi h
    cases p with
    | true =>
      by_cases hres : |ofi| < OFI_RESUME_THRESHOLD
      · simp [ofiGate, hres] at h
      · simp [ofiGate, hres]
    | false =>
      simp only [ofiGate, Bool.false_eq_true, if_false, decide_eq_true_eq] at h ⊢
      have h' := lt_abs.mp h
      unfold OFI_PAUSE_THRESHOLD at h' ⊢
      rcases h' with hpos | hneg <;>
        exact ⟨⟨fun h2 => by linarith, fun h2 => by linarith⟩,
               ⟨fun h2 => by linarith, fun h2 => by linarith⟩⟩
  · intro ofis h
    induction ofis with
    | nil => rfl
    | cons x xs ih =>
      have hx := h x (List.mem_cons_self x xs)
      show ofiGateTrace (ofiGate true x).1 xs = true
      rw [show (ofiGate true x).1 = true by simp [ofiGate, hx]]
      exact ih (fun y hy => h y (List.mem_cons_of_mem x hy))

/-- Witness for C7: OFI 1.0 pauses an unpaused gate; OFI 0.5 keeps a paused
gate paused; OFI 0.1 resumes it. -/
theorem c7_witness :
    (ofiGate false 1).1 = true ∧ (ofiGate true (1 / 2)).1 = true ∧
    (ofiGate true (1 / 10)).1 = false := by
  have a1 : |(1 : ℚ)| = 1 := abs_of_pos (by norm_num)
  have a2 : |(1 : ℚ) / 2| = 1 / 2 := abs_of_pos (by norm_num)
  have a3 : |(1 : ℚ) / 10| = 1 / 10 := abs_of_pos (by norm_num)
  refine ⟨c7_ofi_gate_hysteresis.1 false 1 ?_,
          c7_ofi_gate_hysteresis.2.1 (1 / 2) ?_,
          c7_ofi_gate_hysteresis.2.2.1 (1 / 10) ?_⟩ <;>
    simp only [OFI_PAUSE_THRESHOLD, OFI_RESUME_THRESHOLD, a1, a2, a3] <;>
    norm_num

/-- A cell is Empty exactly when is_empty reports true. -/
lemma is_empty_iff (st : LevelOrderState) :
    st.is_empty = true ↔ st = .Empty := by
  cases st <;> simp [LevelOrderState.is_empty]

/-- The refresh-cancel step never emits a placement on the bid side. -/
lemma refreshCancelBid_no_place (env : BidEnv) (st : LevelOrderState)
    (p s : ℚ) : OrderEvent.placeBid p s ∉ (refreshCancelBid env st).2 := by
  unfold refreshCancelBid
  cases st <;> simp
  split
  · split <;> simp
  · simp

/-- The refresh-cancel step never emits a placement on the ask side. -/
lemma refreshCancelAsk_no_place (env : AskEnv) (st : LevelOrderState)
    (p s : ℚ) : OrderEvent.placeAsk p s ∉ (refreshCancelAsk env st).2 := by
  unfold refreshCancelAsk
  cases st <;> simp
  split
  · split <;> simp
  · simp

/-- If the bid place/cancel step emitted a placement, the cell it read was
Empty, the emitted price and size are the tick's targets, and the available
balance check held. -/
lemma placeOrCancelBid_place_mem (env : BidEnv) (st : LevelOrderState)
    (c : CommitmentTracker) (p s : ℚ)
    (h : OrderEvent.placeBid p s ∈ (placeOrCancelBid env st c).2.2) :
    st.is_empty = true ∧ p = env.bp ∧ s = env.bid_sz ∧
    env.bal_usdt - c.total_usdt - env.bal_usdt * BALANCE_SAFETY_BUFFER_PCT ≥
      env.bid_sz * env.bp := by
  unfold placeOrCancelBid at h
  by_cases hg : bidPlaceGuard env st c = true
  · have hg' := hg
    simp only [bidPlaceGuard, Bool.and_eq_true, decide_eq_true_eq] at hg'
    obtain ⟨⟨⟨⟨h1, _⟩, _⟩, h4⟩, _⟩ := hg'
    rw [if_pos hg] at h
    split at h <;> simp at h <;> exact ⟨h1, h.1, h.2, h4⟩
  · rw [if_neg hg] at h
    split at h
    · split at h
      · split at h <;> simp at h
      · simp at h
    · simp at h

/-- If the ask place/cancel step emitted a placement, the cell it read was
Empty, the emitted price and size are the tick's targets, and the available
balance check held. -/
lemma placeOrCancelAsk_place_mem (env : AskEnv) (st : LevelOrderState)
    (c : CommitmentTracker) (p s : ℚ)
    (h : OrderEvent.placeAsk p s ∈ (placeOrCancelAsk env st c).2.2) :
    st.is_empty = true ∧ p = env.ap ∧ s = env.ask_sz ∧
    env.bal_sol - c.total_sol - env.bal_sol * BALANCE_SAFETY_BUFFER_PCT ≥
      env.ask_sz := by
  unfold placeOrCancelAsk at h
  by_cases hg : askPlaceGuard env st c = true
  · have hg' := hg
    simp only [askPlaceGuard, Bool.and_eq_true, decide_eq_true_eq] at hg'
    obtain ⟨⟨⟨⟨h1, _⟩, _⟩, h4⟩, _⟩ := hg'
    rw [if_pos hg] at h
    split at h <;> simp at h <;> exact ⟨h1, h.1, h.2, h4⟩
  · rw [if_neg hg] at h
    split at h
    · split at h
      · split at h <;> simp at h
      · simp at h
    · simp at h

/-- Claim C3: for every controller tick and every (level, side) cell, a new
order placement is sent only when that cell is Empty (after the refresh
check, the re-read state must be Empty for the place branch to fire);
consequently, a cell state associates at most one exchange_order_id. -/
theorem c3_place_only_on_empty_cells :
    (∀ (env : BidEnv) (st : LevelOrderState) (c : CommitmentTracker) (p s : ℚ),
      OrderEvent.placeBid p s ∈ (tickLevelBid env st c).2.2 →
      (refreshCancelBid env st).1 = .Empty) ∧
    (∀ (env : AskEnv) (st : LevelOrderState) (c : CommitmentTracker) (p s : ℚ),
      OrderEvent.placeAsk p s ∈ (tickLevelAsk env st c).2.2 →
      (refreshCancelAsk env st).1 = .Empty) ∧
    (∀ (st : LevelOrderState) (i j : String),
      st.order_id = some i → st.order_id = some j → i = j) := by
  refine ⟨?_, ?_, ?_⟩
  · intro env st c p s h
    unfold tickLevelBid at h
    rcases List.mem_append.mp h with h1 | h2
    · exact absurd h1 (refreshCancelBid_no_place env st p s)
    · exact (is_empty_iff _).mp (placeOrCancelBid_place_mem env _ c p s h2).1
  · intro env st c p s h
    unfold tickLevelAsk at h
    rcases List.mem_append.mp h with h1 | h2
    · exact absurd h1 (refreshCancelAsk_no_place env st p s)
    · exact (is_empty_iff _).mp (placeOrCancelAsk_place_mem env _ c p s h2).1
  · intro st i j hi hj
    cases st <;> simp [LevelOrderState.order_id] at hi hj
    all_goals exact hi.symm.trans hj

/-- Sample bid environment in which a placement fires: Empty cell, no gate,
ample balance, successful place ack carrying order id B1. -/
def placeEnvBid : BidEnv :=
  { bp := 100, thresh := 1, skip_bids := false, inv := 0, bid_sz := 1,
    bal_usdt := 1000, local_bid_count := 0, now := 0,
    cancelResult := fun _ => .err, placeResult := .ack true (some "B1") }

/-- In placeEnvBid, the tick on an Empty bid cell emits a placement. -/
lemma placeEnvBid_place_mem :
    OrderEvent.placeBid 100 1 ∈
      (tickLevelBid placeEnvBid .Empty ⟨0, 0, 0, 0⟩).2.2 := by
  norm_num [tickLevelBid, refreshCancelBid, placeOrCancelBid, bidPlaceGuard,
    placeEnvBid, can_place_bid, LevelOrderState.is_empty,
    CommitmentTracker.total_usdt, MAX_INV_SOL, MAX_ORDERS_PER_SIDE,
    BALANCE_SAFETY_BUFFER_PCT]

/-- Witness for C3: in placeEnvBid a placement is emitted, and the theorem
yields that the pre-placement cell state is Empty. -/
theorem c3_witness : (refreshCancelBid placeEnvBid .Empty).1 = .Empty :=
  c3_place_only_on_empty_cells.1 placeEnvBid .Empty ⟨0, 0, 0, 0⟩ 100 1
    placeEnvBid_place_mem

/-- Claim C6: a bid placement for a level is sent only if balance_quote minus
(inflight_quote plus live_quote) minus a safety buffer of 2% of
balance_quote is at least the new order's notional (size times price); the
analogous rule over base-currency quantities gates every ask placement. -/
theorem c6_balance_gates_placement :
    (∀ (env : BidEnv) (st : LevelOrderState) (c : CommitmentTracker) (p s : ℚ),
      OrderEvent.placeBid p s ∈ (tickLevelBid env st c).2.2 →
      p = env.bp ∧ s = env.bid_sz ∧
      env.bal_usdt - (c.inflight_usdt + c.live_usdt) -
          env.bal_usdt * BALANCE_SAFETY_BUFFER_PCT ≥ s * p) ∧
    (∀ (env : AskEnv) (st : LevelOrderState) (c : CommitmentTracker) (p s : ℚ),
      OrderEvent.placeAsk p s ∈ (tickLevelAsk env st c).2.2 →
      p = env.ap ∧ s = env.ask_sz ∧
      env.bal_sol - (c.inflight_sol + c.live_sol) -
          env.bal_sol * BALANCE_SAFETY_BUFFER_PCT ≥ s) := by
  constructor
  · intro env st c p s h
    unfold tickLevelBid at h
    rcases List.mem_append.mp h with h1 | h2
    · exact absurd h1 (refreshCancelBid_no_place env st p s)
    · obtain ⟨_, hp, hs, hineq⟩ := placeOrCancelBid_place_mem env _ c p s h2
      refine ⟨hp, hs, ?_⟩
      rw [hp, hs]
      simpa [CommitmentTracker.total_usdt] using hineq
  · intro env st c p s h
    unfold tickLevelAsk at h
    rcases List.mem_append.mp h with h1 | h2
    · exact absurd h1 (refreshCancelAsk_no_place env st p s)
    · obtain ⟨_, hp, hs, hineq⟩ := placeOrCancelAsk_place_mem env _ c p s h2
      refine ⟨hp, hs, ?_⟩
      rw [hs]
      simpa [CommitmentTracker.total_sol] using hineq

/-- Witness for C6: placeEnvBid's placement satisfies the balance gate. -/
theorem c6_witness :
    (100 : ℚ) = placeEnvBid.bp ∧ (1 : ℚ) = placeEnvBid.bid_sz ∧
    placeEnvBid.bal_usdt - ((0 : ℚ) + (0 : ℚ)) -
        placeEnvBid.bal_usdt * BALANCE_SAFETY_BUFFER_PCT ≥ (1 : ℚ) * 100 :=
  c6_balance_gates_placement.1 placeEnvBid .Empty ⟨0, 0, 0, 0⟩ 100 1
    placeEnvBid_place_mem

/-- Claim C4 (amended): when a cancel's streaming request errors or times
out, a refresh-driven cancel leaves the cell in CancelPending holding that
order id, while an inventory/gate-driven cancel leaves the cell Live (to be
retried later); in neither case is the cell forced to Empty. -/
theorem c4_amended_cancel_error (env : BidEnv) (envA : AskEnv) (oid : String)
    (price : ℚ) (c : CommitmentTracker) :
    (env.cancelResult oid = .err →
      (((tickLevelBid env (.Live oid price) c).1 =
          .CancelPending oid price env.now 1 ∨
        (tickLevelBid env (.Live oid price) c).1 = .Live oid price) ∧
       (tickLevelBid env (.Live oid price) c).1 ≠ .Empty ∧
       (|price - env.bp| / env.bp * 10000 > env.thresh →
         (tickLevelBid env (.Live oid price) c).1 =
           .CancelPending oid price env.now 1))) ∧
    (envA.cancelResult oid = .err →
      (((tickLevelAsk envA (.Live oid price) c).1 =
          .CancelPending oid price envA.now 1 ∨
        (tickLevelAsk envA (.Live oid price) c).1 = .Live oid price) ∧
       (tickLevelAsk envA (.Live oid price) c).1 ≠ .Empty ∧
       (|price - envA.ap| / envA.ap * 10000 > envA.thresh →
         (tickLevelAsk envA (.Live oid price) c).1 =
           .CancelPending oid price envA.now 1))) := by
  constructor
  · intro herr
    by_cases hr : |price - env.bp| / env.bp * 10000 > env.thresh
    · have hres : (tickLevelBid env (.Live oid price) c).1 =
          .CancelPending oid price env.now 1 := by
        unfold tickLevelBid
        rw [show refreshCancelBid env (.Live oid price) =
            (.CancelPending oid price env.now 1, [.cancel oid]) by
          simp [refreshCancelBid, hr, herr]]
        simp [placeOrCancelBid, bidPlaceGuard, LevelOrderState.is_empty,
          LevelOrderState.is_live]
      exact ⟨Or.inl hres, by simp [hres], fun _ => hres⟩
    · have hres : (tickLevelBid env (.Live oid price) c).1 = .Live oid price := by
        unfold tickLevelBid
        rw [show refreshCancelBid env (.Live oid price) =
            (.Live oid price, []) by simp [refreshCancelBid, hr]]
        by_cases hn : (LevelOrderState.is_live (.Live oid price) &&
            needs_cancel_bid env.inv env.bid_sz env.skip_bids) = true
        · simp [placeOrCancelBid, bidPlaceGuard, LevelOrderState.is_empty,
            hn, herr]
        · simp [placeOrCancelBid, bidPlaceGuard, LevelOrderState.is_empty, hn]
      exact ⟨Or.inr hres, by simp [hres], fun h2 => absurd h2 hr⟩
  · intro herr
    by_cases hr : |price - envA.ap| / envA.ap * 10000 > envA.thresh
    · have hres : (tickLevelAsk envA (.Live oid price) c).1 =
          .CancelPending oid price envA.now 1 := by
        unfold tickLevelAsk
        rw [show refreshCancelAsk envA (.Live oid price) =
            (.CancelPending oid price envA.now 1, [.cancel oid]) by
          simp [refreshCancelAsk, hr, herr]]
        simp [placeOrCancelAsk, askPlaceGuard, LevelOrderState.is_empty,
          LevelOrderState.is_live]
      exact ⟨Or.inl hres, by simp [hres], fun _ => hres⟩
    · have hres : (tickLevelAsk envA (.Live oid price) c).1 = .Live oid price := by
        unfold tickLevelAsk
        rw [show refreshCancelAsk envA (.Live oid price) =
            (.Live oid price, []) by simp [refreshCancelAsk, hr]]
        by_cases hn : (LevelOrderState.is_live (.Live oid price) &&
            needs_cancel_ask envA.inv envA.ask_sz) = true
        · simp [placeOrCancelAsk, askPlaceGuard, LevelOrderState.is_empty,
            hn, herr]
        · simp [placeOrCancelAsk, askPlaceGuard, LevelOrderState.is_empty, hn]
      exact ⟨Or.inr hres, by simp [hres], fun h2 => absurd h2 hr⟩

/-- Environment for the C4 counterexample and witness: the refresh threshold
is so large the refresh-cancel never fires, skip_bids makes the gate cancel
fire, and every streaming request times out. -/
def c4Env : BidEnv :=
  { bp := 100, thresh := 1000000, skip_bids := true, inv := 0, bid_sz := 1,
    bal_usdt := 1000, local_bid_count := 0, now := 7,
    cancelResult := fun _ => .err, placeResult := .err }

/-- Counterexample to C4 as stated: in c4Env the controller issues a cancel
request on the Live bid cell, the request errors (times out), and the cell
is left Live — not CancelPending. -/
theorem c4_counterexample :
    OrderEvent.cancel "X" ∈
      (tickLevelBid c4Env (.Live "X" 100) ⟨0, 0, 0, 0⟩).2.2 ∧
    (tickLevelBid c4Env (.Live "X" 100) ⟨0, 0, 0, 0⟩).1 = .Live "X" 100 ∧
    ¬ (tickLevelBid c4Env (.Live "X" 100) ⟨0, 0, 0, 0⟩).1.is_cancel_pending = true := by
  have hev : tickLevelBid c4Env (.Live "X" 100) ⟨0, 0, 0, 0⟩ =
      (.Live "X" 100, ⟨0, 0, 0, 0⟩, [.cancel "X"]) := by
    norm_num [tickLevelBid, refreshCancelBid, placeOrCancelBid, bidPlaceGuard,
      c4Env, needs_cancel_bid, LevelOrderState.is_empty,
      LevelOrderState.is_live]
  rw [hev]
  simp [LevelOrderState.is_cancel_pending]

/-- Witness for C4 (amended): in c4Env the gate-driven cancel errors and the
amended theorem yields that the cell is not forced to Empty. -/
theorem c4_witness :
    (tickLevelBid c4Env (.Live "X" 100) ⟨0, 0, 0, 0⟩).1 ≠ .Empty :=
  ((c4_amended_cancel_error c4Env
      ⟨100, 1, false, 0, 1, 1000, 0, 7, fun _ => .err, .err⟩ "X" 100
      ⟨0, 0, 0, 0⟩).1 rfl).2.1

/-- Invariant preserved by every iteration of the orphan-cancellation loop:
budget plus issued cancels stays within the per-tick cap; every id of the
post-expiry map is in the map and never cancelled; every issued cancel is
recorded in the map and is untracked. -/
def orphanInv (tracked live : List String) (s : OrphanState) : Prop :=
  s.budget + s.cancels.length ≤ MAX_ORPHAN_CANCELS_PER_TICK ∧
  (∀ id ∈ live, id ∈ s.rc.map Prod.fst ∧ id ∉ s.cancels) ∧
  (∀ id ∈ s.cancels, id ∈ s.rc.map Prod.fst ∧ id ∉ tracked)

lemma orphanStep_inv (tracked live : List String) (now : Nat)
    (s : OrphanState) (o : ActiveOrder) (h : orphanInv tracked live s) :
    orphanInv tracked live (orphanStep tracked now s o) := by
  obtain ⟨h1, h2, h3⟩ := h
  unfold orphanStep
  split
  case isFalse => exact ⟨h1, h2, h3⟩
  case isTrue hc =>
    split
    case isTrue => exact ⟨h1, h2, h3⟩
    case isFalse hm =>
      have hnotin : o.order_id ∉ s.rc.map Prod.fst := by
        intro hmem
        rcases List.mem_map.mp hmem with ⟨e, he, hfst⟩
        exact hm (List.any_eq_true.mpr ⟨e, he, by simp [hfst]⟩)
      refine ⟨?_, ?_, ?_⟩
      · simp only [OrphanState.cancels, List.length_append, List.length_singleton]
        omega
      · intro id hid
        obtain ⟨ha, hb⟩ := h2 id hid
        refine ⟨by simp [ha], ?_⟩
        simp only [List.mem_append, List.mem_singleton]
        rintro (hcx | rfl)
        · exact hb hcx
        · exact hnotin ha
      · intro id hid
        simp only [List.mem_append, List.mem_singleton] at hid
        rcases hid with hid | rfl
        · obtain ⟨ha, hb⟩ := h3 id hid
          exact ⟨by simp [ha], hb⟩
        · exact ⟨by simp, hc.1⟩

lemma orphanFold_inv (tracked live : List String) (now : Nat) :
    ∀ (l : List ActiveOrder) (s : OrphanState), orphanInv tracked live s →
      orphanInv tracked live (l.foldl (orphanStep tracked now) s) := by
  intro l
  induction l with
  | nil => intro s h; exact h
  | cons o rest ih =>
    intro s h
    exact ih _ (orphanStep_inv tracked live now s o h)

/-- Claim C8: in every reconciliation tick, at most 5 cancel requests are
issued for orphan orders; no orphan cancel is issued for an order whose id
is present in the recently-cancelled map; entries older than 10 s are
removed from that map before the orphan pass; and every issued orphan
cancel records its id in the map (and is for an untracked id). -/
theorem c8_orphan_cancel_throttle (orders : List ActiveOrder)
    (tracked : List String) (rc0 : List (String × Nat)) (now : Nat) :
    (orphanPass orders tracked rc0 now).cancels.length ≤
        MAX_ORPHAN_CANCELS_PER_TICK ∧
    (∀ e ∈ rc0, now - e.2 < 10 →
      e.1 ∉ (orphanPass orders tracked rc0 now).cancels) ∧
    (∀ e ∈ rc0, 10 ≤ now - e.2 → e ∉ expireRecentlyCancelled now rc0) ∧
    (∀ id ∈ (orphanPass orders tracked rc0 now).cancels,
      id ∈ (orphanPass orders tracked rc0 now).rc.map Prod.fst ∧
      id ∉ tracked) := by
  have hinit : orphanInv tracked ((expireRecentlyCancelled now rc0).map Prod.fst)
      { budget := MAX_ORPHAN_CANCELS_PER_TICK,
        rc := expireRecentlyCancelled now rc0, cancels := [] } := by
    refine ⟨by simp, ?_, ?_⟩
    · intro id hid
      exact ⟨hid, List.not_mem_nil id⟩
    · intro id hid
      exact absurd hid (List.not_mem_nil id)
  have hinv := orphanFold_inv tracked
    ((expireRecentlyCancelled now rc0).map Prod.fst) now orders _ hinit
  have hpass : orphanPass orders tracked rc0 now =
      orders.foldl (orphanStep tracked now)
        { budget := MAX_ORPHAN_CANCELS_PER_TICK,
          rc := expireRecentlyCancelled now rc0, cancels := [] } := rfl
  rw [hpass]
  obtain ⟨h1, h2, h3⟩ := hinv
  refine ⟨by omega, ?_, ?_, h3⟩
  · intro e he hlive
    have : e.1 ∈ ((expireRecentlyCancelled now rc0).map Prod.fst) :=
      List.mem_map.mpr ⟨e, List.mem_filter.mpr ⟨he, by simpa using hlive⟩, rfl⟩
    exact (h2 e.1 this).2
  · intro e he hold hmem
    have := (List.mem_filter.mp hmem).2
    simp at this
    omega

/-- Witness for C8: a single untracked active order with an empty map yields
one cancel, within the cap, recorded in the map. -/
theorem c8_witness :
    (orphanPass [⟨"A", "buy", 1, 1⟩] [] [] 0).cancels.length ≤
        MAX_ORPHAN_CANCELS_PER_TICK ∧
    ("A" ∈ (orphanPass [⟨"A", "buy", 1, 1⟩] [] [] 0).cancels →
      "A" ∈ (orphanPass [⟨"A", "buy", 1, 1⟩] [] [] 0).rc.map Prod.fst ∧
      "A" ∉ ([] : List String)) :=
  ⟨(c8_orphan_cancel_throttle [⟨"A", "buy", 1, 1⟩] [] [] 0).1,
   fun hm => (c8_orphan_cancel_throttle [⟨"A", "buy", 1, 1⟩] [] [] 0).2.2.2 "A" hm⟩

/-- A state satisfying the loop's own exit condition is returned unchanged
by the buy matching loop. -/
lemma buyLoop_stop (px : ℚ) (fuel : Nat) (s : MatchState)
    (h : ¬ s.rem > 0 ∨ s.q = []) : buyLoop px fuel s = s := by
  cases fuel with
  | zero => rfl
  | succ n =>
    obtain ⟨q, rem, sp, ma, wi, lo⟩ := s
    cases q with
    | nil => rfl
    | cons e rest =>
      rcases h with h | h
      · simp only [buyLoop]
        rw [if_neg h]
      · simp at h

/-- A state satisfying the loop's own exit condition is returned unchanged
by the sell matching loop. -/
lemma sellLoop_stop (px : ℚ) (fuel : Nat) (s : MatchState)
    (h : ¬ s.rem > 0 ∨ s.q = []) : sellLoop px fuel s = s := by
  cases fuel with
  | zero => rfl
  | succ n =>
    obtain ⟨q, rem, sp, ma, wi, lo⟩ := s
    cases q with
    | nil => rfl
    | cons e rest =>
      rcases h with h | h
      · simp only [sellLoop]
        rw [if_neg h]
      · simp at h

/-- With fuel at least the queue length plus one, the buy matching loop
reaches its exit condition: it ends with nothing left to match or an empty
queue (each iteration either pops the front or zeroes the remainder). -/
lemma buyLoop_exit (px : ℚ) : ∀ (fuel : Nat) (s : MatchState),
    s.q.length + 1 ≤ fuel →
    ¬ (buyLoop px fuel s).rem > 0 ∨ (buyLoop px fuel s).q = [] := by
  intro fuel
  induction fuel with
  | zero => intro s h; simp at h
  | succ n ih =>
    intro s h
    obtain ⟨q, rem, sp, ma, wi, lo⟩ := s
    cases q with
    | nil => right; rfl
    | cons e rest =>
      by_cases hr : rem > 0
      · simp only [buyLoop]
        rw [if_pos hr]
        by_cases hsz : e.sz - min rem e.sz < 1 / 10000
        · rw [if_pos hsz]
          apply ih
          simp only [List.length_cons] at h ⊢
          omega
        · rw [if_neg hsz]
          have hmin : min rem e.sz = rem := by
            rcases le_total rem e.sz with hle | hle
            · exact min_eq_left hle
            · exfalso
              apply hsz
              rw [min_eq_right hle]
              norm_num
          rw [buyLoop_stop px n _ (Or.inl (by simp [hmin]))]
          left
          simp [hmin]
      · simp only [buyLoop]
        rw [if_neg hr]
        left
        exact hr

/-- With fuel at least the queue length plus one, the sell matching loop
reaches its exit condition. -/
lemma sellLoop_exit (px : ℚ) : ∀ (fuel : Nat) (s : MatchState),
    s.q.length + 1 ≤ fuel →
    ¬ (sellLoop px fuel s).rem > 0 ∨ (sellLoop px fuel s).q = [] := by
  intro fuel
  induction fuel with
  | zero => intro s h; simp at h
  | succ n ih =>
    intro s h
    obtain ⟨q, rem, sp, ma, wi, lo⟩ := s
    cases q with
    | nil => right; rfl
    | cons e rest =>
      by_cases hr : rem > 0
      · simp only [sellLoop]
        rw [if_pos hr]
        by_cases hsz : e.sz - min rem e.sz < 1 / 10000
        · rw [if_pos hsz]
          apply ih
          simp only [List.length_cons] at h ⊢
          omega
        · rw [if_neg hsz]
          have hmin : min rem e.sz = rem := by
            rcases le_total rem e.sz with hle | hle
            · exact min_eq_left hle
            · exfalso
              apply hsz
              rw [min_eq_right hle]
              norm_num
          rw [sellLoop_stop px n _ (Or.inl (by simp [hmin]))]
          left
          simp [hmin]
      · simp only [sellLoop]
        rw [if_neg hr]
        left
        exact hr

/-- The invariant of claim C9: at most one of the long and short FIFO queues
is non-empty. -/
def atMostOneSide (p : PnL) : Prop := p.lq = [] ∨ p.sq = []

lemma buy_preserves_atMostOneSide (p : PnL) (px sz r : ℚ)
    (h : atMostOneSide p) : atMostOneSide (p.buy px sz r) := by
  unfold PnL.buy atMostOneSide
  by_cases hrem : (buyLoop px (p.sq.length + 2)
      ⟨p.sq, sz, p.spread, p.matched, p.wins, p.losses⟩).rem > 1 / 10000
  · right
    rcases buyLoop_exit px (p.sq.length + 2)
        ⟨p.sq, sz, p.spread, p.matched, p.wins, p.losses⟩ (by simp) with hx | hx
    · exact absurd (lt_trans (by norm_num) hrem) hx
    · exact hx
  · rcases h with hl | hs0
    · left
      simp only [if_neg hrem]
      exact hl
    · right
      have hstop : buyLoop px (p.sq.length + 2)
          ⟨p.sq, sz, p.spread, p.matched, p.wins, p.losses⟩ =
          ⟨p.sq, sz, p.spread, p.matched, p.wins, p.losses⟩ :=
        buyLoop_stop px _ _ (Or.inr (by simp [hs0]))
      simp only [hstop]
      exact hs0

lemma sell_preserves_atMostOneSide (p : PnL) (px sz r : ℚ)
    (h : atMostOneSide p) : atMostOneSide (p.sell px sz r) := by
  unfold PnL.sell atMostOneSide
  by_cases hrem : (sellLoop px (p.lq.length + 2)
      ⟨p.lq, sz, p.spread, p.matched, p.wins, p.losses⟩).rem > 1 / 10000
  · left
    rcases sellLoop_exit px (p.lq.length + 2)
        ⟨p.lq, sz, p.spread, p.matched, p.wins, p.losses⟩ (by simp) with hx | hx
    · exact absurd (lt_trans (by norm_num) hrem) hx
    · exact hx
  · rcases h with hl0 | hs
    · left
      have hstop : sellLoop px (p.lq.length + 2)
          ⟨p.lq, sz, p.spread, p.matched, p.wins, p.losses⟩ =
          ⟨p.lq, sz, p.spread, p.matched, p.wins, p.losses⟩ :=
        sellLoop_stop px _ _ (Or.inr (by simp [hl0]))
      simp only [hstop]
      exact hl0
    · right
      simp only [if_neg hrem]
      exact hs

lemma applyPnLOps_preserves (ops : List PnLOp) :
    ∀ p, atMostOneSide p → atMostOneSide (applyPnLOps p ops) := by
  induction ops with
  | nil => intro p h; exact h
  | cons op rest ih =>
    intro p h
    cases op with
    | buy px sz r => exact ih _ (buy_preserves_atMostOneSide p px sz r h)
    | sell px sz r => exact ih _ (sell_preserves_atMostOneSide p px sz r h)

/-- Claim C9: for every finite sequence of PnL.buy and PnL.sell operations
starting from the default (empty) PnL state, after each operation at most
one of the long FIFO queue and the short FIFO queue is non-empty (every
prefix of operations is itself such a sequence). -/
theorem c9_at_most_one_queue (ops : List PnLOp) :
    (applyPnLOps PnL.default ops).lq = [] ∨
    (applyPnLOps PnL.default ops).sq = [] :=
  applyPnLOps_preserves ops PnL.default (Or.inl rfl)

/-- The live quote notional a reconciled bid cell state accounts for: the
matched active order's size times price if the cell is Live, else zero. -/
def liveBidNotional (orders : List ActiveOrder) : LevelOrderState → ℚ
  | .Live oid _ =>
    match orders.find? (fun o => o.order_id = oid) with
    | some o => o.size * o.price
    | none => 0
  | _ => 0

/-- The live base size a reconciled ask cell state accounts for. -/
def liveAskSize (orders : List ActiveOrder) : LevelOrderState → ℚ
  | .Live oid _ =>
    match orders.find? (fun o => o.order_id = oid) with
    | some o => o.size
    | none => 0
  | _ => 0

lemma reconBidCell_delta (orders : List ActiveOrder) (S : List String)
    (restOk : String → Bool) (now : Nat) (st : LevelOrderState) :
    (reconBidCell orders S restOk now st).delta =
      liveBidNotional orders (reconBidCell orders S restOk now st).state := by
  cases st with
  | Live oid price =>
    simp only [reconBidCell]
    split <;> simp [liveBidNotional]
  | CancelPending oid price sent_at attempts =>
    simp only [reconBidCell]
    split_ifs <;> simp [liveBidNotional]
  | CancelStuck oid price =>
    simp only [reconBidCell]
    split_ifs <;> simp [liveBidNotional]
  | Empty => simp [reconBidCell, liveBidNotional]

lemma reconAskCell_delta (orders : List ActiveOrder) (S : List String)
    (restOk : String → Bool) (now : Nat) (st : LevelOrderState) :
    (reconAskCell orders S restOk now st).delta =
      liveAskSize orders (reconAskCell orders S restOk now st).state := by
  cases st with
  | Live oid price =>
    simp only [reconAskCell]
    split <;> simp [liveAskSize]
  | CancelPending oid price sent_at attempts =>
    simp only [reconAskCell]
    split_ifs <;> simp [liveAskSize]
  | CancelStuck oid price =>
    simp only [reconAskCell]
    split_ifs <;> simp [liveAskSize]
  | Empty => simp [reconAskCell, liveAskSize]

lemma reconBidCell_id_mem (orders : List ActiveOrder) (S : List String)
    (restOk : String → Bool) (now : Nat) (st : LevelOrderState) (oid' : String)
    (h : (reconBidCell orders S restOk now st).state.order_id = some oid') :
    oid' ∈ S := by
  cases st with
  | Empty => simp [reconBidCell, LevelOrderState.order_id] at h
  | Live oid price =>
    simp only [reconBidCell] at h
    split at h
    case isTrue hmem =>
      simp [LevelOrderState.order_id] at h
      exact h ▸ hmem
    case isFalse => simp [LevelOrderState.order_id] at h
  | CancelPending oid price sent_at attempts =>
    simp only [reconBidCell] at h
    split at h
    case isTrue hmem =>
      repeat' split at h
      all_goals simp [LevelOrderState.order_id] at h
      all_goals exact h ▸ hmem
    case isFalse => simp [LevelOrderState.order_id] at h
  | CancelStuck oid price =>
    simp only [reconBidCell] at h
    split at h
    case isTrue hmem =>
      split at h
      · simp [LevelOrderState.order_id] at h
      · simp [LevelOrderState.order_id] at h
        exact h ▸ hmem
    case isFalse => simp [LevelOrderState.order_id] at h

lemma reconAskCell_id_mem (orders : List ActiveOrder) (S : List String)
    (restOk : String → Bool) (now : Nat) (st : LevelOrderState) (oid' : String)
    (h : (reconAskCell orders S restOk now st).state.order_id = some oid') :
    oid' ∈ S := by
  cases st with
  | Empty => simp [reconAskCell, LevelOrderState.order_id] at h
  | Live oid price =>
    simp only [reconAskCell] at h
    split at h
    case isTrue hmem =>
      simp [LevelOrderState.order_id] at h
      exact h ▸ hmem
    case isFalse => simp [LevelOrderState.order_id] at h
  | CancelPending oid price sent_at attempts =>
    simp only [reconAskCell] at h
    split at h
    case isTrue hmem =>
      repeat' split at h
      all_goals simp [LevelOrderState.order_id] at h
      all_goals exact h ▸ hmem
    case isFalse => simp [LevelOrderState.order_id] at h
  | CancelStuck oid price =>
    simp only [reconAskCell] at h
    split at h
    case isTrue hmem =>
      split at h
      · simp [LevelOrderState.order_id] at h
      · simp [LevelOrderState.order_id] at h
        exact h ▸ hmem
    case isFalse => simp [LevelOrderState.order_id] at h

lemma reconCells_spec (orders : List ActiveOrder) (S : List String)
    (restOk : String → Bool) (now : Nat)
    (cells : List (LevelOrderState × LevelOrderState)) :
    (reconCells orders S restOk now cells).2.2.1 =
      ((reconCells orders S restOk now cells).1.map
        (fun pr => liveBidNotional orders pr.1)).sum ∧
    (reconCells orders S restOk now cells).2.2.2.1 =
      ((reconCells orders S restOk now cells).1.map
        (fun pr => liveAskSize orders pr.2)).sum ∧
    ∀ pr ∈ (reconCells orders S restOk now cells).1, ∀ oid,
      (pr.1.order_id = some oid ∨ pr.2.order_id = some oid) → oid ∈ S := by
  induction cells with
  | nil =>
    refine ⟨rfl, rfl, ?_⟩
    intro pr hpr
    simp [reconCells] at hpr
  | cons p rest ih =>
    obtain ⟨ih1, ih2, ih3⟩ := ih
    refine ⟨?_, ?_, ?_⟩
    · simp only [reconCells, List.map_cons, List.sum_cons]
      rw [ih1, reconBidCell_delta]
    · simp only [reconCells, List.map_cons, List.sum_cons]
      rw [ih2, reconAskCell_delta]
    · intro pr hpr oid hoid
      simp only [reconCells, List.mem_cons] at hpr
      rcases hpr with rfl | hpr
      · rcases hoid with h | h
        · exact reconBidCell_id_mem orders S restOk now p.1 oid h
        · exact reconAskCell_id_mem orders S restOk now p.2 oid h
      · exact ih3 pr hpr oid hoid

/-- Claim C2 (amended): after a reconciliation tick with authoritative data,
for each asset the inflight commitment is 0; the live commitment equals the
sum over the active orders referenced by the cells that remain Live of size
times price (quote side) respectively size (base side) — that is, the
fetched list restricted to tracked Live cells, not the whole list; and every
non-Empty cell's exchange_order_id is a member of the fetched active-id
set. -/
theorem c2_amended_recon_convergence (orders : List ActiveOrder)
    (restOk : String → Bool) (now : Nat)
    (cells : List (LevelOrderState × LevelOrderState)) (c : CommitmentTracker)
    (rc0 : List (String × Nat)) :
    (reconTick orders restOk now cells c rc0).commitments.inflight_usdt = 0 ∧
    (reconTick orders restOk now cells c rc0).commitments.inflight_sol = 0 ∧
    (reconTick orders restOk now cells c rc0).commitments.live_usdt =
      ((reconTick orders restOk now cells c rc0).cells.map
        (fun pr => liveBidNotional orders pr.1)).sum ∧
    (reconTick orders restOk now cells c rc0).commitments.live_sol =
      ((reconTick orders restOk now cells c rc0).cells.map
        (fun pr => liveAskSize orders pr.2)).sum ∧
    ∀ pr ∈ (reconTick orders restOk now cells c rc0).cells, ∀ oid,
      (pr.1.order_id = some oid ∨ pr.2.order_id = some oid) →
      oid ∈ orders.map (fun o => o.order_id) := by
  have hspec := reconCells_spec orders (orders.map (fun o => o.order_id))
    restOk now cells
  exact ⟨rfl, rfl, hspec.1, hspec.2.1, hspec.2.2⟩

/-- Witness for C2 (amended): a concrete reconciliation with one tracked
Live bid cell leaves no inflight quote commitment. -/
theorem c2_witness :
    (reconTick [⟨"A", "buy", 2, 1⟩] (fun _ => false) 0
      [(.Live "A" 2, .Empty)] ⟨3, 4, 5, 6⟩ []).commitments.inflight_usdt = 0 :=
  (c2_amended_recon_convergence [⟨"A", "buy", 2, 1⟩] (fun _ => false) 0
    [(.Live "A" 2, .Empty)] ⟨3, 4, 5, 6⟩ []).1

/-- Counterexample to C2 as stated: with a single active buy order that no
cell tracks (an orphan), the rebuilt live quote commitment is 0 while the
sum over the fetched active orders of size times price is 2; the two are not
equal, so live_* does not equal the sum over the whole fetched list. -/
theorem c2_counterexample :
    (reconTick [⟨"A", "buy", 2, 1⟩] (fun _ => false) 0 [] ⟨0, 0, 0, 0⟩
        []).commitments.live_usdt = 0 ∧
    (([⟨"A", "buy", 2, 1⟩] : List ActiveOrder).map
        (fun o => o.size * o.price)).sum = 2 ∧
    (reconTick [⟨"A", "buy", 2, 1⟩] (fun _ => false) 0 [] ⟨0, 0, 0, 0⟩
        []).commitments.live_usdt ≠
      (([⟨"A", "buy", 2, 1⟩] : List ActiveOrder).map
        (fun o => o.size * o.price)).sum := by
  have h1 : (reconTick [⟨"A", "buy", 2, 1⟩] (fun _ => false) 0 [] ⟨0, 0, 0, 0⟩
      []).commitments.live_usdt = 0 := rfl
  have h2 : (([⟨"A", "buy", 2, 1⟩] : List ActiveOrder).map
      (fun o => o.size * o.price)).sum = 2 := by norm_num
  refine ⟨h1, h2, ?_⟩
  rw [h1, h2]
  norm_num

/-- Claim C1 (code bug): poll_active_orders swallows every transport and
parse failure and returns the empty list, which the reconciliation tick
cannot distinguish from an authoritative report of no active orders; far
from retaining cell state, the tick then transitions every tracked cell to
Empty and zeroes the live commitments. -/
theorem c1_failed_fetch_forces_transitions :
    poll_active_orders .failure = [] ∧
    (reconTick (poll_active_orders .failure) (fun _ => false) 0
        [(.Live "X" 2, .CancelPending "Y" 3 0 1)] ⟨0, 0, 5, 7⟩ []).cells =
      [(.Empty, .Empty)] ∧
    (reconTick (poll_active_orders .failure) (fun _ => false) 0
        [(.Live "X" 2, .CancelPending "Y" 3 0 1)] ⟨0, 0, 5, 7⟩ []).cells ≠
      [(.Live "X" 2, .CancelPending "Y" 3 0 1)] ∧
    (reconTick (poll_active_orders .failure) (fun _ => false) 0
        [(.Live "X" 2, .CancelPending "Y" 3 0 1)] ⟨0, 0, 5, 7⟩
        []).commitments.live_usdt = 0 ∧
    (reconTick (poll_active_orders .failure) (fun _ => false) 0
        [(.Live "X" 2, .CancelPending "Y" 3 0 1)] ⟨0, 0, 5, 7⟩
        []).commitments.live_sol = 0 := by
  refine ⟨rfl, by decide, by decide, ?_, ?_⟩
  · norm_num [reconTick, reconCells, reconBidCell, reconAskCell,
      poll_active_orders]
  · norm_num [reconTick, reconCells, reconBidCell, reconAskCell,
      poll_active_orders]

end MLK
